import Mathlib

/-!
Verification of the query/analytics layer of the moonwaller monitoring
dashboard (Drizzle/Postgres data access code in `src/db/queries`).

The database is modelled as plain Lean lists: a list of `Report` rows and a
list of `TestResult` rows.  Each exported query function is embedded as a pure
Lean function over those lists, translated clause by clause from the SQL the
TypeScript code builds:

* `WHERE` clauses become `List.filter` with a predicate assembled from the
  same optional-filter pushes as the source (TypeScript truthiness: an
  empty-string filter value is falsy and is not pushed);
* `ORDER BY` becomes a stable insertion sort (`insSort`), a deterministic
  refinement of the database's unspecified tie order;
* `LIMIT`/`OFFSET` become `List.take`/`List.drop`;
* `LIKE '%x%'` / `ILIKE '%x%'` become (case-insensitive) substring tests on
  the literal pattern text (terms containing SQL wildcard characters are
  modelled as literal text);
* joins are row-pair lists (`flatMap`), `GROUP BY` is grouping by key over
  those rows, and aggregate `COUNT`/`AVG`/`SUM`/`MAX` are list folds;
* JSON columns (`metadata`, `details`) are modelled by their stringified
  text, which is the only way the queries consume them (`::text ILIKE`,
  `JSON.stringify`);
* timestamps are epoch milliseconds (`Int`); `new Date(Date.now() - k)`
  becomes `now - k` for an explicit `now` parameter;
* JavaScript float arithmetic on rates is modelled over `ℚ`, with
  `Math.round` as `jsRound` (floor of `x + 1/2`).

Presentation-only pieces (regex highlight snippets, ISO date formatting,
`searchTime` stopwatch values, human-readable alert message text) are not
modelled; alerts keep their `type` plus a stable tag identifying which
message template the source pushes.
-/

/-! ### Executable string and list helpers -/

/-- ASCII-style lowercasing of a string, character by character: the model of
Postgres `ILIKE` case folding. -/
def lowerStr (s : String) : String := ⟨s.data.map Char.toLower⟩

/-- `leadMatch needle hay` : does `needle` occur at the very start of `hay`? -/
def leadMatch : List Char → List Char → Bool
  | [], _ => true
  | _ :: _, [] => false
  | a :: as, b :: bs => a == b && leadMatch as bs

/-- `subAt needle hay` : does `needle` occur as a contiguous run anywhere in
`hay`? -/
def subAt : List Char → List Char → Bool
  | needle, [] => needle.isEmpty
  | needle, c :: t => leadMatch needle (c :: t) || subAt needle t

/-- Case-sensitive substring test: the model of SQL `LIKE '%needle%'` with the
pattern text taken literally. -/
def containsSub (hay needle : String) : Bool := subAt needle.data hay.data

/-- Case-insensitive substring test: the model of SQL `ILIKE '%needle%'`. -/
def icontains (hay needle : String) : Bool :=
  containsSub (lowerStr hay) (lowerStr needle)

/-- Strip leading and trailing whitespace: the model of JavaScript
`String.prototype.trim()`. -/
def wsTrim (l : List Char) : List Char :=
  ((l.dropWhile Char.isWhitespace).reverse.dropWhile Char.isWhitespace).reverse

/-- Worker for `splitWs`; `cur` holds the current in-progress word reversed. -/
def splitWsAux (cur : List Char) : List Char → List String
  | [] => if cur.isEmpty then [] else [⟨cur.reverse⟩]
  | c :: t =>
    if c.isWhitespace then
      if cur.isEmpty then splitWsAux [] t else ⟨cur.reverse⟩ :: splitWsAux [] t
    else splitWsAux (c :: cur) t

/-- Split on whitespace, dropping empty pieces: the model of
`s.split(/\s+/).filter(term => term.length > 0)` applied to a trimmed
string. -/
def splitWs (l : List Char) : List String := splitWsAux [] l

/-- Total lexicographic order on strings by code point: the model of the
database's ordering on text columns. -/
def charListLe : List Char → List Char → Bool
  | [], _ => true
  | _ :: _, [] => false
  | a :: as, b :: bs => if a == b then charListLe as bs else a.toNat ≤ b.toNat

/-- String comparison used by `ORDER BY` on text columns. -/
def strLe (a b : String) : Bool := charListLe a.data b.data

/-- Insert an element into a sorted list, before the first element it is
`le`-related to (this makes `insSort` stable). -/
def insertSorted (le : α → α → Bool) (a : α) : List α → List α
  | [] => [a]
  | b :: t => if le a b then a :: b :: t else b :: insertSorted le a t

/-- Stable insertion sort: the deterministic model of SQL `ORDER BY` and of
JavaScript's (stable) `Array.prototype.sort`. -/
def insSort (le : α → α → Bool) : List α → List α
  | [] => []
  | a :: t => insertSorted le a (insSort le t)

/-- Remove duplicates keeping first occurrences (worker with a `seen`
accumulator). -/
def dedupKeepAux [DecidableEq α] (seen : List α) : List α → List α
  | [] => []
  | a :: t =>
    if a ∈ seen then dedupKeepAux seen t else a :: dedupKeepAux (a :: seen) t

/-- Remove duplicates keeping first occurrences: the deterministic model of
SQL `DISTINCT` / `GROUP BY` key enumeration. -/
def dedupKeep [DecidableEq α] (l : List α) : List α := dedupKeepAux [] l

/-- Maximum of a list of integers (`none` on the empty list): the model of SQL
`MAX` over a group. -/
def listMaxInt : List Int → Option Int
  | [] => none
  | a :: t =>
    match listMaxInt t with
    | none => some a
    | some m => some (max a m)

/-- `Math.ceil(total / limit)` on naturals (the `limit = 0` case, which in
JavaScript produces `Infinity`/`NaN`, is collapsed to `0`; no claim touches
it). -/
def pageCount (total limit : Nat) : Nat :=
  if limit = 0 then 0 else (total + limit - 1) / limit

/-! ### Executable rational rounding (JavaScript `Math.round`, SQL casts) -/

/-- Executable floor of a rational. -/
def ratFloor (q : ℚ) : ℤ := q.num / (q.den : ℤ)

theorem ratFloor_eq_floor (q : ℚ) : ratFloor q = ⌊q⌋ := Rat.floor_def.symm

/-- JavaScript `Math.round`: round half toward positive infinity. -/
def jsRound (q : ℚ) : ℤ := ratFloor (q + 1 / 2)

theorem jsRound_eq (q : ℚ) : jsRound q = ⌊q + 1 / 2⌋ := ratFloor_eq_floor _

/-- Rounding of a half-away-from-zero cast (`numeric::int` in Postgres).  On
the nonnegative values that durations take, it agrees with `jsRound`. -/
def pgRoundInt (q : ℚ) : ℤ :=
  if q < 0 then -jsRound (-q) else jsRound q

/-- `COALESCE(AVG(l), 0)` as an exact rational (0 on the empty group). -/
def avgQ (l : List Int) : ℚ :=
  if l = [] then 0 else (l.sum : ℚ) / (l.length : ℚ)

/-- `COALESCE(AVG(l), 0)::int`: rounded integer average, 0 on the empty
group. -/
def pgAvgInt (l : List Int) : ℤ :=
  if l = [] then 0 else pgRoundInt ((l.sum : ℚ) / (l.length : ℚ))

/-! ### Data model -/

/-- A row of the `reports` table.  `metadata` is the stringified form of the
JSON column, which is the only way the query layer consumes it. -/
structure Report where
  id : String
  blockchain : String
  testSuite : String
  timestamp : Int
  status : String
  duration : Int
  metadata : String
  createdAt : Int
  updatedAt : Int
deriving DecidableEq

/-- A row of the `test_results` table; `details` is the stringified JSON
column. -/
structure TestResult where
  id : String
  reportId : String
  testName : String
  status : String
  duration : Int
  errorMessage : Option String
  details : String
  createdAt : Int
deriving DecidableEq

/-- Insert shape for a report (`NewReport` in the source): generated columns
(`id`, timestamps) are absent, `timestamp`/`metadata` optional. -/
structure NewReport where
  blockchain : String
  testSuite : String
  status : String
  duration : Int
  timestamp : Option Int := none
  metadata : Option String := none
deriving DecidableEq

/-- The whole store: both tables plus the id-generation source for inserts. -/
structure DbState where
  reports : List Report
  testResults : List TestResult
  nextId : Nat
deriving DecidableEq

/-! ### Report queries (`src/db/queries/reports.ts`) -/

/-- `ReportFilters` from the source; every field optional. -/
structure ReportFilters where
  blockchain : Option String := none
  testSuite : Option String := none
  status : Option String := none
  dateFrom : Option Int := none
  dateTo : Option Int := none
  search : Option String := none
  minDuration : Option Int := none
  maxDuration : Option Int := none
deriving DecidableEq

/-- `PaginationOptions` from the source.  `sortBy` is kept as a plain string
because the source looks the value up dynamically (`validSortColumns[sortBy]`)
and must tolerate out-of-list values. -/
structure PaginationOptions where
  page : Option Nat := none
  limit : Option Nat := none
  sortBy : Option String := none
  sortOrder : Option String := none
deriving DecidableEq

/-- A condition pushed for a string-typed filter: TypeScript `if (x)` skips
both `undefined` and the falsy empty string. -/
def condIfStr {α : Type} (o : Option String) (mk : String → α → Bool) :
    List (α → Bool) :=
  match o with
  | some s => if s = "" then [] else [mk s]
  | none => []

/-- A condition pushed for a filter tested with `!== undefined` (numbers) or
always truthy when present (`Date` objects). -/
def condIfSome {α β : Type} (o : Option β) (mk : β → α → Bool) :
    List (α → Bool) :=
  match o with
  | some v => [mk v]
  | none => []

/-- The `conditions` array `getReports` builds, in push order. -/
def reportConditions (f : ReportFilters) : List (Report → Bool) :=
  condIfStr f.blockchain (fun b r => r.blockchain == b) ++
  condIfStr f.testSuite (fun s r => containsSub r.testSuite s) ++
  condIfStr f.status (fun s r => r.status == s) ++
  condIfSome f.dateFrom (fun d r => d ≤ r.timestamp) ++
  condIfSome f.dateTo (fun d r => r.timestamp ≤ d) ++
  condIfStr f.search (fun q r =>
    containsSub r.blockchain q || containsSub r.testSuite q ||
      icontains r.metadata q) ++
  condIfSome f.minDuration (fun m r => m ≤ r.duration) ++
  condIfSome f.maxDuration (fun m r => r.duration ≤ m)

/-- The assembled `WHERE` clause of `getReports` (`and(...conditions)`; no
condition means no clause, i.e. always true). -/
def whereReport (f : ReportFilters) (r : Report) : Bool :=
  (reportConditions f).all (fun c => c r)

/-- The five allowed sort columns. -/
inductive SortCol where
  | timestampCol
  | durationCol
  | blockchainCol
  | testSuiteCol
  | statusCol
deriving DecidableEq

/-- What the JavaScript property lookup `validSortColumns[sortBy]` can hand
to `asc`/`desc` after the `|| reports.timestamp` fallback: a real column, or a
truthy non-column value inherited from `Object.prototype`. -/
inductive SortLookup where
  | col (c : SortCol)
  | protoJunk
deriving DecidableEq

/-- The property names every plain object literal inherits from
`Object.prototype` (including the `__proto__` accessor): looking them up on
`validSortColumns` yields a truthy value (a function, or the prototype object
itself), so the `||` fallback never fires for them. -/
def objectProtoKeys : List String :=
  ["constructor", "hasOwnProperty", "isPrototypeOf", "propertyIsEnumerable",
    "toLocaleString", "toString", "valueOf", "__proto__", "__defineGetter__",
    "__defineSetter__", "__lookupGetter__", "__lookupSetter__"]

/-- `validSortColumns[sortBy] || reports.timestamp`: JavaScript property
access on the object literal.  Own keys map to their columns; names inherited
from `Object.prototype` return a truthy non-column, so the fallback never
fires for them; every other string yields `undefined` (falsy) and falls back
to the timestamp column. -/
def sortColumnOf (sortBy : String) : SortLookup :=
  if sortBy = "timestamp" then .col .timestampCol
  else if sortBy = "duration" then .col .durationCol
  else if sortBy = "blockchain" then .col .blockchainCol
  else if sortBy = "testSuite" then .col .testSuiteCol
  else if sortBy = "status" then .col .statusCol
  else if sortBy ∈ objectProtoKeys then .protoJunk
  else .col .timestampCol

/-- Ascending comparison on one sort column. -/
def reportKeyLe (c : SortCol) (a b : Report) : Bool :=
  match c with
  | .timestampCol => a.timestamp ≤ b.timestamp
  | .durationCol => a.duration ≤ b.duration
  | .blockchainCol => strLe a.blockchain b.blockchain
  | .testSuiteCol => strLe a.testSuite b.testSuite
  | .statusCol => strLe a.status b.status

/-- `sortOrder === 'asc' ? asc(col) : desc(col)` (anything other than
`"asc"`, including the default, sorts descending). -/
def reportOrderLe (c : SortCol) (sortOrder : String) (a b : Report) : Bool :=
  if sortOrder = "asc" then reportKeyLe c a b else reportKeyLe c b a

/-- The full `ORDER BY` comparison produced by the lookup.  On the degenerate
`Object.prototype` path the non-column value reaches `asc`/`desc` and is
embedded as a bound constant, which imposes no ordering on the rows: modelled
as the stable identity order (every pair ties).  At runtime that path may
instead fail in the driver — in no reading does it order by a report
column. -/
def reportOrderOf (lookup : SortLookup) (sortOrder : String) (a b : Report) :
    Bool :=
  match lookup with
  | .col c => reportOrderLe c sortOrder a b
  | .protoJunk => true

/-- Uniform paginated result shape `{data, total, page, limit, totalPages}`. -/
structure PageResult (α : Type) where
  data : List α
  total : Nat
  page : Nat
  limit : Nat
  totalPages : Nat
deriving DecidableEq

/-- `getReports(filters, pagination)`: filter, sort, paginate; the `total`
comes from the separate count query over the same `WHERE` clause. -/
def getReports (db : List Report) (f : ReportFilters) (p : PaginationOptions) :
    PageResult Report :=
  let page := p.page.getD 1
  let limit := p.limit.getD 50
  let sortBy := p.sortBy.getD "timestamp"
  let sortOrder := p.sortOrder.getD "desc"
  let ordered := insSort (reportOrderOf (sortColumnOf sortBy) sortOrder)
    (db.filter (whereReport f))
  let total := (db.filter (whereReport f)).length
  { data := (ordered.drop ((page - 1) * limit)).take limit
    total := total
    page := page
    limit := limit
    totalPages := pageCount total limit }

/-- A report row augmented with its per-status test counts. -/
structure ReportWithCounts extends Report where
  totalTests : Nat
  passedTests : Nat
  failedTests : Nat
  skippedTests : Nat
deriving DecidableEq

/-- One grouped row of the `getReportsWithCounts` query: the
`LEFT JOIN test_results GROUP BY reports.id` block computes, per report,
`COUNT(test_results.id)` (null rows not counted) and the three conditional
counts, all `COALESCE`d to 0. -/
def withCounts (trs : List TestResult) (r : Report) : ReportWithCounts :=
  { toReport := r
    totalTests := (trs.filter (fun t => t.reportId == r.id)).length
    passedTests := ((trs.filter (fun t => t.reportId == r.id)).filter
      (fun t => t.status == "pass")).length
    failedTests := ((trs.filter (fun t => t.reportId == r.id)).filter
      (fun t => t.status == "fail")).length
    skippedTests := ((trs.filter (fun t => t.reportId == r.id)).filter
      (fun t => t.status == "skip")).length }

/-- `getReportsWithCounts(filters, pagination)`: the source rebuilds the same
filter and sort clauses as `getReports` and runs them through the grouped
left-join query; each report in the page becomes one row with counts. -/
def getReportsWithCounts (db : List Report) (trs : List TestResult)
    (f : ReportFilters) (p : PaginationOptions) : PageResult ReportWithCounts :=
  let page := p.page.getD 1
  let limit := p.limit.getD 50
  let sortBy := p.sortBy.getD "timestamp"
  let sortOrder := p.sortOrder.getD "desc"
  let ordered := insSort (reportOrderOf (sortColumnOf sortBy) sortOrder)
    (db.filter (whereReport f))
  let total := (db.filter (whereReport f)).length
  { data := ((ordered.drop ((page - 1) * limit)).take limit).map (withCounts trs)
    total := total
    page := page
    limit := limit
    totalPages := pageCount total limit }

/-- Build the persisted row for one `NewReport` (generated id from the store's
id source, `defaultNow()` timestamps). -/
def persistReport (nextId : Nat) (now : Int) (d : NewReport) : Report :=
  { id := toString nextId
    blockchain := d.blockchain
    testSuite := d.testSuite
    timestamp := d.timestamp.getD now
    status := d.status
    duration := d.duration
    metadata := d.metadata.getD "null"
    createdAt := now
    updatedAt := now }

/-- `insertReports(data[])`: empty input returns `[]` without touching the
store; otherwise one bulk insert returning the persisted rows. -/
def insertReports (s : DbState) (now : Int) (data : List NewReport) :
    List Report × DbState :=
  if data.length = 0 then ([], s)
  else
    let rows := data.enum.map (fun x => persistReport (s.nextId + x.1) now x.2)
    (rows,
      { s with reports := s.reports ++ rows, nextId := s.nextId + data.length })

/-- `deleteReports(ids[])`: empty input returns 0 without touching the store;
otherwise deletes matching reports (the store cascades to their test results)
and returns the number of deleted rows. -/
def deleteReports (s : DbState) (ids : List String) : Nat × DbState :=
  if ids.length = 0 then (0, s)
  else
    let removed := s.reports.filter (fun r => ids.contains r.id)
    (removed.length,
      { s with
        reports := s.reports.filter (fun r => !ids.contains r.id)
        testResults := s.testResults.filter
          (fun t => !(removed.map (fun r => r.id)).contains t.reportId) })

/-- A present optional filter's predicate holds (absent filters hold
vacuously). -/
def optHolds (o : Option β) (p : β → Bool) : Bool :=
  match o with
  | some v => p v
  | none => true

/-- The filter predicate as the specification words it ("all optional,
combined with AND; exact match on blockchain, substring match on testSuite,
exact match on status, inclusive ranges, OR-search over blockchain, testSuite
and stringified metadata"), where "supplied" means the field is present.  This
is the spec-side definition used to compare against the source-side
`whereReport`. -/
def specReportPred (f : ReportFilters) (r : Report) : Bool :=
  optHolds f.blockchain (fun b => r.blockchain == b) &&
  optHolds f.testSuite (fun s => containsSub r.testSuite s) &&
  optHolds f.status (fun s => r.status == s) &&
  optHolds f.dateFrom (fun d => d ≤ r.timestamp) &&
  optHolds f.dateTo (fun d => r.timestamp ≤ d) &&
  optHolds f.search (fun q =>
    containsSub r.blockchain q || containsSub r.testSuite q ||
      icontains r.metadata q) &&
  optHolds f.minDuration (fun m => m ≤ r.duration) &&
  optHolds f.maxDuration (fun m => r.duration ≤ m)

/-! ### Test-result statistics (`getTestResultStats`) -/

/-- Result shape of `getTestResultStats`. -/
structure TestResultStats where
  total : Nat
  passed : Nat
  failed : Nat
  skipped : Nat
  averageDuration : Int
  totalDuration : Int
deriving DecidableEq

/-- `getTestResultStats(reportId)`: one aggregation over the report's test
results; `COUNT` of each status, `COALESCE(AVG(duration), 0)::int`,
`COALESCE(SUM(duration), 0)::int`.  An aggregate query always yields a row, so
the function is total. -/
def getTestResultStats (trs : List TestResult) (reportId : String) :
    TestResultStats :=
  let g := trs.filter (fun t => t.reportId == reportId)
  { total := g.length
    passed := (g.filter (fun t => t.status == "pass")).length
    failed := (g.filter (fun t => t.status == "fail")).length
    skipped := (g.filter (fun t => t.status == "skip")).length
    averageDuration := pgAvgInt (g.map (fun t => t.duration))
    totalDuration := (g.map (fun t => t.duration)).sum }

/-! ### Search queries (`src/db/queries/search.ts`) -/

/-- `SearchFilters` from the source (the two include flags default to true
when absent). -/
structure SearchFilters where
  query : String
  blockchain : Option String := none
  status : Option String := none
  dateFrom : Option Int := none
  dateTo : Option Int := none
  includeReports : Option Bool := none
  includeTestResults : Option Bool := none
deriving DecidableEq

/-- `SearchOptions` from the source.  As in `PaginationOptions`, `sortBy` is a
plain string. -/
structure SearchOptions where
  page : Option Nat := none
  limit : Option Nat := none
  sortBy : Option String := none
  sortOrder : Option String := none
deriving DecidableEq

/-- One combined search hit.  Presentation-only fields of the source
(`description`, `highlights`) are not modelled. -/
structure SearchResult where
  type : String
  id : String
  title : String
  blockchain : String
  status : String
  timestamp : Int
  relevanceScore : Nat
deriving DecidableEq

/-- Search response (`searchTime`, a wall-clock stopwatch, is not
modelled). -/
structure SearchResponse where
  results : List SearchResult
  total : Nat
  page : Nat
  limit : Nat
  totalPages : Nat
deriving DecidableEq

/-- `WHERE` clause of the report sub-search: every term must match one of the
three `ILIKE`d report fields, AND the optional structured filters. -/
def reportSearchWhere (terms : List String) (blockchain status : Option String)
    (dateFrom dateTo : Option Int) (r : Report) : Bool :=
  terms.all (fun term =>
    icontains r.blockchain term || icontains r.testSuite term ||
      icontains r.metadata term) &&
  (condIfStr blockchain (fun b (x : Report) => x.blockchain == b) ++
    condIfStr status (fun s (x : Report) => x.status == s) ++
    condIfSome dateFrom (fun d (x : Report) => d ≤ x.timestamp) ++
    condIfSome dateTo (fun d (x : Report) => x.timestamp ≤ d)).all
    (fun c => c r)

/-- Relevance score of a report hit: weighted `ILIKE` hits of the FIRST search
term only (`searchTerms[0]`; the caller guarantees at least one term). -/
def reportRelevance (terms : List String) (r : Report) : Nat :=
  (if icontains r.blockchain (terms.headD "") then 10 else 0) +
  (if icontains r.testSuite (terms.headD "") then 8 else 0) +
  (if icontains r.metadata (terms.headD "") then 5 else 0)

/-- `searchReports`: filter, order by relevance descending, slice, and count
the full match set for `total`. -/
def searchReports (db : List Report) (terms : List String)
    (blockchain status : Option String) (dateFrom dateTo : Option Int)
    (limit offset : Nat) : List SearchResult × Nat :=
  let matched := db.filter
    (reportSearchWhere terms blockchain status dateFrom dateTo)
  let ordered := insSort
    (fun a b => reportRelevance terms b ≤ reportRelevance terms a) matched
  (((ordered.drop offset).take limit).map (fun r =>
    { type := "report"
      id := r.id
      title := r.blockchain ++ " - " ++ r.testSuite
      blockchain := r.blockchain
      status := r.status
      timestamp := r.timestamp
      relevanceScore := reportRelevance terms r }),
    matched.length)

/-- `FROM test_results INNER JOIN reports ON test_results.report_id =
reports.id` as a list of row pairs. -/
def joinTR (trs : List TestResult) (db : List Report) :
    List (TestResult × Report) :=
  trs.flatMap (fun t =>
    (db.filter (fun r => r.id == t.reportId)).map (fun r => (t, r)))

/-- `WHERE` clause of the test-result sub-search over a joined row (`ILIKE` on
a NULL `errorMessage` never matches). -/
def trSearchWhere (terms : List String) (blockchain status : Option String)
    (dateFrom dateTo : Option Int) (x : TestResult × Report) : Bool :=
  terms.all (fun term =>
    icontains x.1.testName term ||
      (match x.1.errorMessage with
        | some e => icontains e term
        | none => false) ||
      icontains x.1.details term || icontains x.2.blockchain term) &&
  (condIfStr blockchain (fun b (y : TestResult × Report) =>
      y.2.blockchain == b) ++
    condIfStr status (fun s (y : TestResult × Report) => y.1.status == s) ++
    condIfSome dateFrom (fun d (y : TestResult × Report) =>
      d ≤ y.2.timestamp) ++
    condIfSome dateTo (fun d (y : TestResult × Report) =>
      y.2.timestamp ≤ d)).all (fun c => c x)

/-- Relevance score of a test-result hit (first term only). -/
def trRelevance (terms : List String) (x : TestResult × Report) : Nat :=
  (if icontains x.1.testName (terms.headD "") then 15 else 0) +
  (if (match x.1.errorMessage with
        | some e => icontains e (terms.headD "")
        | none => false) then 12 else 0) +
  (if icontains x.1.details (terms.headD "") then 8 else 0) +
  (if icontains x.2.blockchain (terms.headD "") then 5 else 0)

/-- `searchTestResults`: same shape as `searchReports` over the joined
rows. -/
def searchTestResults (trs : List TestResult) (db : List Report)
    (terms : List String) (blockchain status : Option String)
    (dateFrom dateTo : Option Int) (limit offset : Nat) :
    List SearchResult × Nat :=
  let matched := (joinTR trs db).filter
    (trSearchWhere terms blockchain status dateFrom dateTo)
  let ordered := insSort
    (fun a b => trRelevance terms b ≤ trRelevance terms a) matched
  (((ordered.drop offset).take limit).map (fun x =>
    { type := "test_result"
      id := x.1.id
      title := x.1.testName
      blockchain := x.2.blockchain
      status := x.1.status
      timestamp := x.2.timestamp
      relevanceScore := trRelevance terms x }),
    matched.length)

/-- The comparator the source passes to `Array.prototype.sort` on the
combined hits, as a (stable-sort) `le`: the `'relevance'` case and the
`default` case compare scores, `'timestamp'` compares timestamps, each in the
requested direction. -/
def combinedLe (sortBy sortOrder : String) (a b : SearchResult) : Bool :=
  if sortBy = "timestamp" then
    if sortOrder = "desc" then b.timestamp ≤ a.timestamp
    else a.timestamp ≤ b.timestamp
  else
    if sortOrder = "desc" then b.relevanceScore ≤ a.relevanceScore
    else a.relevanceScore ≤ b.relevanceScore

/-- `performFullTextSearch(filters, options)`: empty/whitespace query short-
circuits; otherwise the two sub-searches run with limit `ceil(limit/2)` and
offset `floor(offset/2)`, their hits are concatenated, re-sorted, and cut to
`limit`, and `total` is the sum of the two sub-totals. -/
def performFullTextSearch (db : List Report) (trs : List TestResult)
    (f : SearchFilters) (o : SearchOptions) : SearchResponse :=
  let page := o.page.getD 1
  let limit := o.limit.getD 50
  let sortBy := o.sortBy.getD "relevance"
  let sortOrder := o.sortOrder.getD "desc"
  if (wsTrim f.query.data).isEmpty then
    { results := [], total := 0, page := page, limit := limit, totalPages := 0 }
  else
    let terms := splitWs (wsTrim f.query.data)
    let offset := (page - 1) * limit
    let rPart :=
      if f.includeReports.getD true then
        searchReports db terms f.blockchain f.status f.dateFrom f.dateTo
          ((limit + 1) / 2) (offset / 2)
      else ([], 0)
    let tPart :=
      if f.includeTestResults.getD true then
        searchTestResults trs db terms f.blockchain f.status f.dateFrom
          f.dateTo ((limit + 1) / 2) (offset / 2)
      else ([], 0)
    let combined := insSort (combinedLe sortBy sortOrder) (rPart.1 ++ tPart.1)
    { results := combined.take limit
      total := rPart.2 + tPart.2
      page := page
      limit := limit
      totalPages := pageCount (rPart.2 + tPart.2) limit }

/-- Filter record of `performAdvancedSearch`. -/
structure AdvancedFilters where
  query : Option String := none
  blockchain : Option (List String) := none
  status : Option (List String) := none
  testName : Option String := none
  hasError : Option Bool := none
  dateFrom : Option Int := none
  dateTo : Option Int := none
  minDuration : Option Int := none
  maxDuration : Option Int := none
  sortBy : Option String := none
  sortOrder : Option String := none
  page : Option Nat := none
  limit : Option Nat := none
deriving DecidableEq

/-- `WHERE` clause of `performAdvancedSearch` over a joined row, in the
source's push order.  The `= ANY(ARRAY[...])` membership tests are modelled as
list membership (the raw string interpolation the source uses to build the
array literal is an injection hazard, not extra semantics, for well-formed
values). -/
def advancedWhere (af : AdvancedFilters) (x : TestResult × Report) : Bool :=
  ((match af.query with
    | some q =>
      if (wsTrim q.data).isEmpty then []
      else [fun (y : TestResult × Report) =>
        (splitWs (wsTrim q.data)).all (fun term =>
          icontains y.1.testName term ||
            (match y.1.errorMessage with
              | some e => icontains e term
              | none => false) ||
            icontains y.1.details term || icontains y.2.blockchain term ||
            icontains y.2.testSuite term)]
    | none => []) ++
  (match af.blockchain with
    | some l =>
      if l.length = 0 then []
      else [fun (y : TestResult × Report) => l.contains y.2.blockchain]
    | none => []) ++
  (match af.status with
    | some l =>
      if l.length = 0 then []
      else [fun (y : TestResult × Report) => l.contains y.1.status]
    | none => []) ++
  condIfStr af.testName (fun tn (y : TestResult × Report) =>
    icontains y.1.testName tn) ++
  (match af.hasError with
    | some true => [fun (y : TestResult × Report) =>
        match y.1.errorMessage with
        | some e => e != ""
        | none => false]
    | some false => [fun (y : TestResult × Report) =>
        match y.1.errorMessage with
        | some e => e == ""
        | none => true]
    | none => []) ++
  condIfSome af.dateFrom (fun d (y : TestResult × Report) =>
    d ≤ y.2.timestamp) ++
  condIfSome af.dateTo (fun d (y : TestResult × Report) =>
    y.2.timestamp ≤ d) ++
  condIfSome af.minDuration (fun m (y : TestResult × Report) =>
    m ≤ y.1.duration) ++
  condIfSome af.maxDuration (fun m (y : TestResult × Report) =>
    y.1.duration ≤ m)).all (fun c => c x)

/-- Relevance score used by the advanced search's `ORDER BY` when sorting by
relevance: the WHOLE query string (not individual terms) `ILIKE`d against
three fields; the constant 1 when no query is supplied. -/
def advancedRelevance (af : AdvancedFilters) (x : TestResult × Report) : Nat :=
  match af.query with
  | some q =>
    if q = "" then 1
    else
      (if icontains x.1.testName q then 15 else 0) +
      (if (match x.1.errorMessage with
            | some e => icontains e q
            | none => false) then 12 else 0) +
      (if icontains x.2.blockchain q then 5 else 0)
  | none => 1

/-- The advanced search's `ORDER BY`, as a `le` on joined rows. -/
def advancedOrderLe (af : AdvancedFilters) (a b : TestResult × Report) : Bool :=
  let sortBy := af.sortBy.getD "relevance"
  let sortOrder := af.sortOrder.getD "desc"
  if sortBy = "timestamp" then
    if sortOrder = "desc" then b.2.timestamp ≤ a.2.timestamp
    else a.2.timestamp ≤ b.2.timestamp
  else if sortBy = "duration" then
    if sortOrder = "desc" then b.1.duration ≤ a.1.duration
    else a.1.duration ≤ b.1.duration
  else if sortBy = "testName" then
    if sortOrder = "desc" then strLe b.1.testName a.1.testName
    else strLe a.1.testName b.1.testName
  else
    if sortOrder = "desc" then advancedRelevance af b ≤ advancedRelevance af a
    else advancedRelevance af a ≤ advancedRelevance af b

/-- `performAdvancedSearch(filters)`: one filtered, ordered, paginated query
over the join; every produced row is emitted with the hard-coded
`relevanceScore: 1`. -/
def performAdvancedSearch (db : List Report) (trs : List TestResult)
    (af : AdvancedFilters) : SearchResponse :=
  let page := af.page.getD 1
  let limit := af.limit.getD 50
  let matched := (joinTR trs db).filter (advancedWhere af)
  let ordered := insSort (advancedOrderLe af) matched
  { results := ((ordered.drop ((page - 1) * limit)).take limit).map (fun x =>
      { type := "test_result"
        id := x.1.id
        title := x.1.testName
        blockchain := x.2.blockchain
        status := x.1.status
        timestamp := x.2.timestamp
        relevanceScore := 1 })
    total := matched.length
    page := page
    limit := limit
    totalPages := pageCount matched.length limit }

/-! ### Analytics queries (`src/db/queries/analytics.ts`) -/

/-- `timeframe` argument of `getDashboardSummary`. -/
inductive Timeframe where
  | hour
  | day
  | week
  | month
deriving DecidableEq

/-- Window size of each timeframe in milliseconds. -/
def timeframeMillis : Timeframe → Int
  | .hour => 60 * 60 * 1000
  | .day => 24 * 60 * 60 * 1000
  | .week => 7 * 24 * 60 * 60 * 1000
  | .month => 30 * 24 * 60 * 60 * 1000

/-- `timeframe` argument of `getBlockchainStats` (no `hour`). -/
inductive StatsTimeframe where
  | day
  | week
  | month
deriving DecidableEq

/-- Window size for `getBlockchainStats`. -/
def statsTimeframeMillis : StatsTimeframe → Int
  | .day => 24 * 60 * 60 * 1000
  | .week => 7 * 24 * 60 * 60 * 1000
  | .month => 30 * 24 * 60 * 60 * 1000

/-- `test_results INNER JOIN reports` restricted to reports in the window
`timestamp >= since`, as `(test result, report)` row pairs. -/
def windowJoin (trs : List TestResult) (db : List Report) (since : Int) :
    List (TestResult × Report) :=
  trs.flatMap (fun t =>
    (db.filter (fun r => r.id == t.reportId && since ≤ r.timestamp)).map
      (fun r => (t, r)))

/-- `reports LEFT JOIN test_results` row pairs: a report with no test results
contributes a single row with a NULL right side. -/
def leftJoinTR (rs : List Report) (trs : List TestResult) :
    List (Report × Option TestResult) :=
  rs.flatMap (fun r =>
    let g := trs.filter (fun t => t.reportId == r.id)
    if g.isEmpty then [(r, none)] else g.map (fun t => (r, some t)))

/-- `CASE WHEN test_results.status = s THEN 1 END` over a left-joined row
(NULL rows never match). -/
def trOptStatusIs (o : Option TestResult) (s : String) : Bool :=
  match o with
  | some t => t.status == s
  | none => false

/-- Result shape of `getDashboardSummary`. -/
structure DashboardSummary where
  totalReports : Nat
  totalTests : Nat
  passedTests : Nat
  failedTests : Nat
  skippedTests : Nat
  averageDuration : Int
  successRate : ℚ
  recentFailures : Nat
  activeBlockchains : Nat

/-- `getDashboardSummary(timeframe)`: report aggregates over the window,
test aggregates over the window join, and
`successRate = round(((passed/total)*100)*100)/100` with the zero-test case
defined as 0. -/
def getDashboardSummary (db : List Report) (trs : List TestResult) (now : Int)
    (tf : Timeframe) : DashboardSummary :=
  let since := now - timeframeMillis tf
  let wReports := db.filter (fun r => since ≤ r.timestamp)
  let joined := windowJoin trs db since
  let totalTests := joined.length
  let passedTests := joined.countP (fun x => x.1.status == "pass")
  let successRate : ℚ :=
    if 0 < totalTests then ((passedTests : ℚ) / (totalTests : ℚ)) * 100 else 0
  { totalReports := wReports.length
    totalTests := totalTests
    passedTests := passedTests
    failedTests := joined.countP (fun x => x.1.status == "fail")
    skippedTests := joined.countP (fun x => x.1.status == "skip")
    averageDuration := jsRound (avgQ (wReports.map (fun r => r.duration)))
    successRate := (jsRound (successRate * 100) : ℚ) / 100
    recentFailures := wReports.countP (fun r => r.status == "fail")
    activeBlockchains := (dedupKeep (wReports.map (fun r => r.blockchain))).length }

/-- Result shape of one `getBlockchainStats` row. -/
structure BlockchainStats where
  blockchain : String
  totalReports : Nat
  totalTests : Nat
  passedTests : Nat
  failedTests : Nat
  skippedTests : Nat
  successRate : ℚ
  averageDuration : Int
  lastReportTime : Option Int

/-- The left-joined rows of one blockchain's group in `getBlockchainStats`. -/
def blockchainGroupRows (wReports : List Report) (trs : List TestResult)
    (b : String) : List (Report × Option TestResult) :=
  leftJoinTR (wReports.filter (fun r => r.blockchain == b)) trs

/-- One output row of `getBlockchainStats` for blockchain `b`.  Note that
`totalReports` is `count(reports.id)` over the LEFT-JOINED rows, so a report
is counted once per test result (at least once); `averageDuration` is likewise
weighted by test count.  Both model the source query faithfully. -/
def blockchainStatsRow (wReports : List Report) (trs : List TestResult)
    (b : String) : BlockchainStats :=
  let rows := blockchainGroupRows wReports trs b
  let totalTests := rows.countP (fun x => x.2.isSome)
  let passed := rows.countP (fun x => trOptStatusIs x.2 "pass")
  { blockchain := b
    totalReports := rows.length
    totalTests := totalTests
    passedTests := passed
    failedTests := rows.countP (fun x => trOptStatusIs x.2 "fail")
    skippedTests := rows.countP (fun x => trOptStatusIs x.2 "skip")
    successRate :=
      if 0 < totalTests then
        (jsRound (((passed : ℚ) / (totalTests : ℚ)) * 10000) : ℚ) / 100
      else 0
    averageDuration := jsRound (avgQ (rows.map (fun x => x.1.duration)))
    lastReportTime := listMaxInt (rows.map (fun x => x.1.timestamp)) }

/-- `getBlockchainStats(timeframe)`: group the window's reports by blockchain,
order groups by report volume (`count(reports.id)`) descending, one stats row
per group. -/
def getBlockchainStats (db : List Report) (trs : List TestResult) (now : Int)
    (tf : StatsTimeframe) : List BlockchainStats :=
  let since := now - statsTimeframeMillis tf
  let w := db.filter (fun r => since ≤ r.timestamp)
  let chains := dedupKeep (w.map (fun r => r.blockchain))
  let ordered := insSort (fun a b =>
    (blockchainGroupRows w trs b).length ≤ (blockchainGroupRows w trs a).length)
    chains
  ordered.map (blockchainStatsRow w trs)

/-- Calendar-date bucket of a timestamp: the model of SQL
`DATE(timestamp)` (UTC day index). -/
def dayBucket (ts : Int) : Int := ts.fdiv 86400000

/-- Result shape of one `getTimeSeriesData` row; `date` is the day bucket
(the source renders it as a `YYYY-MM-DD` string). -/
structure TimeSeriesData where
  date : Int
  totalTests : Nat
  passedTests : Nat
  failedTests : Nat
  skippedTests : Nat
  successRate : ℚ
  averageDuration : Int

/-- One daily row of `getTimeSeriesData` from its group of left-joined rows. -/
def timeSeriesRow (rows : List (Report × Option TestResult)) (d : Int) :
    TimeSeriesData :=
  let g := rows.filter (fun x => dayBucket x.1.timestamp == d)
  let totalTests := g.countP (fun x => x.2.isSome)
  let passed := g.countP (fun x => trOptStatusIs x.2 "pass")
  { date := d
    totalTests := totalTests
    passedTests := passed
    failedTests := g.countP (fun x => trOptStatusIs x.2 "fail")
    skippedTests := g.countP (fun x => trOptStatusIs x.2 "skip")
    successRate :=
      if 0 < totalTests then
        (jsRound (((passed : ℚ) / (totalTests : ℚ)) * 10000) : ℚ) / 100
      else 0
    averageDuration := jsRound (avgQ (g.map (fun x => x.1.duration))) }

/-- `getTimeSeriesData(days, blockchain?)`: daily buckets over the window,
optionally scoped to one blockchain (truthiness push), ascending by date. -/
def getTimeSeriesData (db : List Report) (trs : List TestResult) (now : Int)
    (days : Nat) (blockchain : Option String) : List TimeSeriesData :=
  let since := now - (days : Int) * 86400000
  let conds : List (Report → Bool) :=
    [fun (r : Report) => decide (since ≤ r.timestamp)] ++
      condIfStr blockchain (fun b (r : Report) => r.blockchain == b)
  let w := db.filter (fun r => conds.all (fun c => c r))
  let rows := leftJoinTR w trs
  let dates := dedupKeep (rows.map (fun x => dayBucket x.1.timestamp))
  let ordered := insSort (fun a b => a ≤ b) dates
  ordered.map (timeSeriesRow rows)

/-- Result shape of one `getTestFailurePatterns` row. -/
structure TestFailurePattern where
  testName : String
  failureCount : Nat
  totalRuns : Nat
  failureRate : ℚ
  lastFailure : Option Int
  commonErrors : List String

/-- One output row of `getTestFailurePatterns` for test name `n` over the
window's joined rows. -/
def failurePatternRow (pairs : List (TestResult × Report)) (n : String) :
    TestFailurePattern :=
  let g := pairs.filter (fun x => x.1.testName == n)
  let failureCount := g.countP (fun x => x.1.status == "fail")
  let totalRuns := g.length
  { testName := n
    failureCount := failureCount
    totalRuns := totalRuns
    failureRate :=
      if 0 < totalRuns then
        (jsRound (((failureCount : ℚ) / (totalRuns : ℚ)) * 10000) : ℚ) / 100
      else 0
    lastFailure := listMaxInt
      ((g.filter (fun x => x.1.status == "fail")).map (fun x => x.2.timestamp))
    commonErrors := dedupKeep
      ((g.filterMap (fun x => x.1.errorMessage)).filter (fun e => e ≠ "")) }

/-- `getTestFailurePatterns(limit, days)`: group the window's joined rows by
test name, keep groups with at least one failure (`HAVING`), order by failure
count descending, truncate to `limit`. -/
def getTestFailurePatterns (db : List Report) (trs : List TestResult)
    (now : Int) (limit days : Nat) : List TestFailurePattern :=
  let since := now - (days : Int) * 86400000
  let pairs := windowJoin trs db since
  let names := dedupKeep (pairs.map (fun x => x.1.testName))
  let withFail := names.filter (fun n =>
    0 < (pairs.filter (fun x => x.1.testName == n)).countP
      (fun x => x.1.status == "fail"))
  let ordered := insSort (fun a b =>
    (pairs.filter (fun x => x.1.testName == b)).countP
        (fun x => x.1.status == "fail") ≤
      (pairs.filter (fun x => x.1.testName == a)).countP
        (fun x => x.1.status == "fail")) withFail
  (ordered.take limit).map (failurePatternRow pairs)

/-! #### `getSystemHealthMetrics` -/

/-- The 24-hour `reports LEFT JOIN test_results` rows the health query
aggregates. -/
def healthJoinRows (db : List Report) (trs : List TestResult) (now : Int) :
    List (Report × Option TestResult) :=
  leftJoinTR (db.filter (fun r => now - 24 * 60 * 60 * 1000 ≤ r.timestamp)) trs

/-- `COALESCE(COUNT(test_results.id), 0)` of the health query. -/
def shTotalTests (db : List Report) (trs : List TestResult) (now : Int) : Nat :=
  (healthJoinRows db trs now).countP (fun x => x.2.isSome)

/-- Passed-test count of the health query. -/
def shPassedTests (db : List Report) (trs : List TestResult) (now : Int) :
    Nat :=
  (healthJoinRows db trs now).countP (fun x => trOptStatusIs x.2 "pass")

/-- The source's `recentSuccessRate` local: `(passed/total)*100`, defined as
100 when no tests ran in the last 24 hours. -/
def recentSuccessRateRaw (db : List Report) (trs : List TestResult)
    (now : Int) : ℚ :=
  if 0 < shTotalTests db trs now then
    ((shPassedTests db trs now : ℚ) / (shTotalTests db trs now : ℚ)) * 100
  else 100

/-- `count()` of reports received in the last hour. -/
def lastHourReportCount (db : List Report) (now : Int) : Nat :=
  (db.filter (fun r => now - 60 * 60 * 1000 ≤ r.timestamp)).length

/-- One alert: its `type` plus a stable tag naming which message template the
source pushes (the human-readable interpolated text is presentation only). -/
structure HealthAlert where
  type : String
  tag : String
deriving DecidableEq

/-- The alert list, in the source's push order: the success-rate check
(critical below 50, else warning below 80), then the no-recent-reports
check. -/
def shAlerts (db : List Report) (trs : List TestResult) (now : Int) :
    List HealthAlert :=
  (if recentSuccessRateRaw db trs now < 50 then
    [{ type := "critical", tag := "successRate" }]
   else if recentSuccessRateRaw db trs now < 80 then
    [{ type := "warning", tag := "successRate" }]
   else []) ++
  (if lastHourReportCount db now = 0 then
    [{ type := "warning", tag := "noRecentReports" }]
   else [])

/-- `metrics` sub-record of the health response. -/
structure SystemHealthMetrics where
  recentSuccessRate : ℚ
  averageResponseTime : Int
  activeBlockchains : Nat
  reportsLast24h : Nat
  failuresLast24h : Nat

/-- Full health response. -/
structure SystemHealth where
  overallHealth : String
  metrics : SystemHealthMetrics
  alerts : List HealthAlert

/-- `getSystemHealthMetrics()`: 24-hour aggregates over the left join, the
alert checks, and overall health derived from the alert list (`critical` if
any critical alert, else `warning` if any alert, else `healthy`). -/
def getSystemHealthMetrics (db : List Report) (trs : List TestResult)
    (now : Int) : SystemHealth :=
  let rows := healthJoinRows db trs now
  let alerts := shAlerts db trs now
  { overallHealth :=
      if alerts.any (fun a => a.type == "critical") then "critical"
      else if 0 < alerts.length then "warning"
      else "healthy"
    metrics :=
      { recentSuccessRate :=
          (jsRound (recentSuccessRateRaw db trs now * 100) : ℚ) / 100
        averageResponseTime := jsRound (avgQ (rows.map (fun x => x.1.duration)))
        activeBlockchains := (dedupKeep (rows.map (fun x => x.1.blockchain))).length
        reportsLast24h := (dedupKeep (rows.map (fun x => x.1.id))).length
        failuresLast24h := rows.countP (fun x => trOptStatusIs x.2 "fail") }
    alerts := alerts }

/-! ### Basic lemmas about the helpers -/

theorem mem_insertSorted {le : α → α → Bool} {a x : α} {l : List α} :
    x ∈ insertSorted le a l ↔ x = a ∨ x ∈ l := by
  induction l with
  | nil => simp [insertSorted]
  | cons b t ih =>
    simp only [insertSorted]
    split
    · simp [List.mem_cons]
    · simp only [List.mem_cons, ih]
      tauto

theorem mem_insSort {le : α → α → Bool} {x : α} {l : List α} :
    x ∈ insSort le l ↔ x ∈ l := by
  induction l with
  | nil => simp [insSort]
  | cons a t ih => simp [insSort, mem_insertSorted, ih]

theorem containsSub_empty (s : String) : containsSub s "" = true := by
  show subAt [] s.data = true
  cases s.data with
  | nil => rfl
  | cons c t => simp [subAt, leadMatch]

theorem all_condIfStr_ne {α : Type} (o : Option String) (mk : String → α → Bool)
    (x : α) (h : o ≠ some "") :
    (condIfStr o mk).all (fun c => c x) = optHolds o (fun s => mk s x) := by
  cases o with
  | none => rfl
  | some s =>
    have hs : s ≠ "" := fun e => h (by rw [e])
    simp [condIfStr, hs, optHolds]

theorem all_condIfStr_emptyTrue {α : Type} (o : Option String)
    (mk : String → α → Bool) (x : α) (h : mk "" x = true) :
    (condIfStr o mk).all (fun c => c x) = optHolds o (fun s => mk s x) := by
  cases o with
  | none => rfl
  | some s =>
    by_cases hs : s = ""
    · subst hs
      simp [condIfStr, optHolds, h]
    · simp [condIfStr, hs, optHolds]

theorem all_condIfSome {α β : Type} (o : Option β) (mk : β → α → Bool)
    (x : α) :
    (condIfSome o mk).all (fun c => c x) = optHolds o (fun v => mk v x) := by
  cases o <;> simp [condIfSome, optHolds]

/-- The source's assembled `WHERE` clause agrees with the spec-side predicate
whenever the two exact-match string filters are not degenerate empty strings
(for `testSuite` and `search` an empty string matches everything, so skipping
the condition coincides with applying it). -/
theorem whereReport_eq_spec (f : ReportFilters) (r : Report)
    (hb : f.blockchain ≠ some "") (hs : f.status ≠ some "") :
    whereReport f r = specReportPred f r := by
  unfold whereReport reportConditions specReportPred
  rw [List.all_append, List.all_append, List.all_append, List.all_append,
    List.all_append, List.all_append, List.all_append]
  rw [all_condIfStr_ne _ _ _ hb,
    all_condIfStr_emptyTrue _ _ _ (containsSub_empty r.testSuite),
    all_condIfStr_ne _ _ _ hs,
    all_condIfSome, all_condIfSome,
    all_condIfStr_emptyTrue _ _ _ (by simp [containsSub_empty]),
    all_condIfSome, all_condIfSome]

theorem filter_status_partition (l : List TestResult)
    (h : ∀ t ∈ l, t.status = "pass" ∨ t.status = "fail" ∨ t.status = "skip") :
    (l.filter (fun t => t.status == "pass")).length +
      (l.filter (fun t => t.status == "fail")).length +
      (l.filter (fun t => t.status == "skip")).length = l.length := by
  induction l with
  | nil => rfl
  | cons t ts ih =>
    have ht := h t (List.mem_cons_self t ts)
    have ih2 := ih fun x hx => h x (List.mem_cons_of_mem _ hx)
    rcases ht with h1 | h1 | h1 <;>
      simp +decide [List.filter_cons, h1, List.length_cons] <;> omega

/-! ### Claims about the report queries -/

/-- **C1** (amended).  Every row `getReports` returns satisfies every supplied
filter predicate, and `total` counts exactly the stored reports satisfying
those predicates, independent of `page` and `limit` — provided the
exact-match `blockchain` and `status` filters are not supplied as the empty
string (the source treats falsy filter values as absent). -/
theorem getReports_filters_sound (db : List Report) (f : ReportFilters)
    (p : PaginationOptions) (hb : f.blockchain ≠ some "")
    (hs : f.status ≠ some "") :
    (∀ r ∈ (getReports db f p).data, specReportPred f r = true) ∧
    (getReports db f p).total =
      List.countP (fun r => specReportPred f r) db := by
  constructor
  · intro r hr
    simp only [getReports] at hr
    have h1 : r ∈ (insSort
        (reportOrderOf (sortColumnOf (p.sortBy.getD "timestamp"))
          (p.sortOrder.getD "desc")) (db.filter (whereReport f))).drop
        ((p.page.getD 1 - 1) * (p.limit.getD 50)) :=
      (List.take_sublist _ _).subset hr
    have h2 := (List.drop_sublist _ _).subset h1
    have h3 := mem_insSort.mp h2
    have h4 := List.mem_filter.mp h3
    rw [← whereReport_eq_spec f r hb hs]
    exact h4.2
  · simp only [getReports]
    rw [← List.countP_eq_length_filter,
      List.countP_congr fun a ha => by rw [whereReport_eq_spec f a hb hs]]

/-- Concrete store and filters on which claim C1, as stated, fails: the
filter `{ blockchain: "" }` is supplied but falsy, so the source drops it and
returns a row whose blockchain is not the empty string. -/
def c1Report : Report :=
  { id := "r1", blockchain := "ethereum", testSuite := "suite-a"
    timestamp := 0, status := "pass", duration := 5000, metadata := "null"
    createdAt := 0, updatedAt := 0 }

/-- The degenerate filter combination: `blockchain` supplied as `""`. -/
def c1Filters : ReportFilters := { blockchain := some "" }

/-- **C1** counterexample: with the empty-string `blockchain` filter supplied,
`getReports` returns a row violating the supplied exact-match predicate, and
`total` differs from the count of rows satisfying the supplied predicates. -/
theorem getReports_claim_counterexample :
    ¬ ((∀ r ∈ (getReports [c1Report] c1Filters {}).data,
          specReportPred c1Filters r = true) ∧
       (getReports [c1Report] c1Filters {}).total =
         List.countP (fun r => specReportPred c1Filters r) [c1Report]) := by
  decide

/-- **C1** witness: the amended theorem applied to a concrete store and a
concrete non-degenerate filter. -/
theorem getReports_filters_sound_witness :
    (∀ r ∈ (getReports [c1Report]
        { blockchain := some "ethereum", minDuration := some 100 } {}).data,
      specReportPred
        { blockchain := some "ethereum", minDuration := some 100 } r = true) ∧
    (getReports [c1Report]
        { blockchain := some "ethereum", minDuration := some 100 } {}).total =
      List.countP
        (fun r => specReportPred
          { blockchain := some "ethereum", minDuration := some 100 } r)
        [c1Report] :=
  getReports_filters_sound [c1Report]
    { blockchain := some "ethereum", minDuration := some 100 } {}
    (by decide) (by decide)

/-- First report of the C9 counterexample store (older timestamp, stored
first). -/
def c9ReportA : Report :=
  { id := "ra", blockchain := "moonbeam", testSuite := "suite-a"
    timestamp := 1, status := "pass", duration := 10, metadata := "null"
    createdAt := 0, updatedAt := 0 }

/-- Second report of the C9 counterexample store (newer timestamp, stored
second). -/
def c9ReportB : Report :=
  { id := "rb", blockchain := "moonriver", testSuite := "suite-b"
    timestamp := 2, status := "fail", duration := 20, metadata := "null"
    createdAt := 0, updatedAt := 0 }

/-- **C9** counterexample: `sortBy = "toString"` is outside the allow-list,
but the property lookup finds the inherited `Object.prototype.toString`
(truthy), the `|| reports.timestamp` fallback never fires, `asc`/`desc`
receives a non-column, and the result is NOT ordered as it would be for
`sortBy = "timestamp"`: timestamp-descending order puts the newer report
first, the degenerate path does not. -/
theorem getReports_sortBy_claim_counterexample :
    ¬ (getReports [c9ReportA, c9ReportB] {} { sortBy := some "toString" } =
        getReports [c9ReportA, c9ReportB] {} { sortBy := some "timestamp" }) := by
  decide

/-- **C9** (amended).  Any `sortBy` value outside the allow-list — other than
the property names inherited from `Object.prototype`, for which the truthy
prototype-chain lookup defeats the fallback — behaves exactly like
`sortBy = "timestamp"`: the lookup falls back to the timestamp column and the
requested `sortOrder` still applies, so the client string never becomes an
ordering column. -/
theorem getReports_sortBy_fallback (db : List Report) (f : ReportFilters)
    (p : PaginationOptions) (s : String)
    (h : s ∉ (["timestamp", "duration", "blockchain", "testSuite",
      "status"] : List String)) (hp : s ∉ objectProtoKeys) :
    getReports db f { p with sortBy := some s } =
      getReports db f { p with sortBy := some "timestamp" } := by
  simp only [List.mem_cons, List.mem_singleton, not_or] at h
  obtain ⟨h1, h2, h3, h4, h5, -⟩ := h
  have hc : sortColumnOf s = SortLookup.col SortCol.timestampCol := by
    simp [sortColumnOf, h1, h2, h3, h4, h5, hp]
  have hts : sortColumnOf "timestamp" = SortLookup.col SortCol.timestampCol :=
    rfl
  simp [getReports, hc, hts]

/-- **C9** witness: the fallback equality at the concrete out-of-list,
non-inherited value `"bogus"`. -/
theorem getReports_sortBy_fallback_witness :
    getReports [c1Report] {} { sortBy := some "bogus" } =
      getReports [c1Report] {} { sortBy := some "timestamp" } :=
  getReports_sortBy_fallback [c1Report] {} {} "bogus" (by decide) (by decide)

/-- **C8**.  Batch operations on empty input short-circuit: `insertReports`
on `[]` returns `[]` and leaves the store untouched, `deleteReports` on `[]`
returns `0` and leaves the store untouched, whatever the store state. -/
theorem batch_empty_noop (s : DbState) (now : Int) :
    insertReports s now [] = ([], s) ∧ deleteReports s [] = (0, s) := by
  constructor <;> rfl

/-- **C7**.  For a report id with no stored test results — including ids that
reference no report at all — `getTestResultStats` returns the all-zero
statistics record (the Lean embedding is a total function: no null, no
exception). -/
theorem getTestResultStats_empty (trs : List TestResult) (rid : String)
    (h : trs.filter (fun t => t.reportId == rid) = []) :
    getTestResultStats trs rid = ⟨0, 0, 0, 0, 0, 0⟩ := by
  simp [getTestResultStats, h, pgAvgInt]

/-- A stored test result used by the C7 witness; it belongs to report `r1`. -/
def c7TestResult : TestResult :=
  { id := "t1", reportId := "r1", testName := "example test"
    status := "pass", duration := 3, errorMessage := none, details := "null"
    createdAt := 0 }

/-- **C7** witness: a store holding one test result of a different report;
the queried id has no test results and the all-zero record comes back. -/
theorem getTestResultStats_empty_witness :
    [c7TestResult].filter (fun t => t.reportId == "missing") = [] ∧
    getTestResultStats [c7TestResult] "missing" = ⟨0, 0, 0, 0, 0, 0⟩ :=
  ⟨by decide, getTestResultStats_empty [c7TestResult] "missing" (by decide)⟩

/-- **C2**.  Under the stored-status invariant, `getReportsWithCounts` returns
exactly the same reports as `getReports` (so a matching report with zero test
results is still returned), and every returned row carries the exact counts
(N, P, F, S) of its stored test results, with P + F + S = N (all 0, not null,
when there are none). -/
theorem getReportsWithCounts_counts_exact (db : List Report)
    (trs : List TestResult) (f : ReportFilters) (p : PaginationOptions)
    (hstat : ∀ t ∈ trs,
      t.status = "pass" ∨ t.status = "fail" ∨ t.status = "skip") :
    ((getReportsWithCounts db trs f p).data.map (fun x => x.toReport) =
      (getReports db f p).data) ∧
    (∀ row ∈ (getReportsWithCounts db trs f p).data,
      row.totalTests = (trs.filter (fun t => t.reportId == row.id)).length ∧
      row.passedTests = ((trs.filter (fun t => t.reportId == row.id)).filter
        (fun t => t.status == "pass")).length ∧
      row.failedTests = ((trs.filter (fun t => t.reportId == row.id)).filter
        (fun t => t.status == "fail")).length ∧
      row.skippedTests = ((trs.filter (fun t => t.reportId == row.id)).filter
        (fun t => t.status == "skip")).length ∧
      row.passedTests + row.failedTests + row.skippedTests = row.totalTests) := by
  constructor
  · simp only [getReportsWithCounts, getReports, List.map_map]
    have hcomp : ((fun x : ReportWithCounts => x.toReport) ∘ withCounts trs) =
        id := funext fun r => rfl
    rw [hcomp, List.map_id]
  · intro row hrow
    simp only [getReportsWithCounts, List.mem_map] at hrow
    obtain ⟨r, hr, rfl⟩ := hrow
    refine ⟨rfl, rfl, rfl, rfl, ?_⟩
    exact filter_status_partition _
      fun t ht => hstat t (List.mem_of_mem_filter ht)

/-- The report of the spec's example scenario. -/
def c2Report : Report :=
  { id := "r1", blockchain := "ethereum", testSuite := "suite-a"
    timestamp := 10, status := "pass", duration := 5000, metadata := "null"
    createdAt := 0, updatedAt := 0 }

/-- Passing test result of the example scenario. -/
def c2Pass : TestResult :=
  { id := "t1", reportId := "r1", testName := "test one", status := "pass"
    duration := 10, errorMessage := none, details := "null", createdAt := 0 }

/-- Failing test result of the example scenario. -/
def c2Fail : TestResult :=
  { id := "t2", reportId := "r1", testName := "test two", status := "fail"
    duration := 20, errorMessage := some "boom", details := "null"
    createdAt := 0 }

/-- **C2** witness: the spec's example scenario (one ethereum report, one pass
and one fail result) run through the theorem. -/
theorem getReportsWithCounts_counts_exact_witness :
    (∀ t ∈ [c2Pass, c2Fail],
      t.status = "pass" ∨ t.status = "fail" ∨ t.status = "skip") ∧
    (((getReportsWithCounts [c2Report] [c2Pass, c2Fail]
        { blockchain := some "ethereum" } {}).data.map (fun x => x.toReport) =
      (getReports [c2Report] { blockchain := some "ethereum" } {}).data) ∧
    (∀ row ∈ (getReportsWithCounts [c2Report] [c2Pass, c2Fail]
        { blockchain := some "ethereum" } {}).data,
      row.totalTests =
        ([c2Pass, c2Fail].filter (fun t => t.reportId == row.id)).length ∧
      row.passedTests =
        (([c2Pass, c2Fail].filter (fun t => t.reportId == row.id)).filter
          (fun t => t.status == "pass")).length ∧
      row.failedTests =
        (([c2Pass, c2Fail].filter (fun t => t.reportId == row.id)).filter
          (fun t => t.status == "fail")).length ∧
      row.skippedTests =
        (([c2Pass, c2Fail].filter (fun t => t.reportId == row.id)).filter
          (fun t => t.status == "skip")).length ∧
      row.passedTests + row.failedTests + row.skippedTests =
        row.totalTests)) :=
  ⟨by decide,
    getReportsWithCounts_counts_exact [c2Report] [c2Pass, c2Fail]
      { blockchain := some "ethereum" } {} (by decide)⟩

/-! ### Claims about the search queries -/

/-- **C5**.  A query that is empty or whitespace-only short-circuits: empty
results, zero total, zero totalPages, and the result does not depend on the
store at all (no query is issued). -/
theorem fullTextSearch_empty_query (dbA : List Report) (trsA : List TestResult)
    (dbB : List Report) (trsB : List TestResult) (f : SearchFilters)
    (o : SearchOptions) (hq : wsTrim f.query.data = []) :
    (performFullTextSearch dbA trsA f o).results = [] ∧
    (performFullTextSearch dbA trsA f o).total = 0 ∧
    (performFullTextSearch dbA trsA f o).totalPages = 0 ∧
    performFullTextSearch dbA trsA f o = performFullTextSearch dbB trsB f o := by
  have he : (wsTrim f.query.data).isEmpty = true := by rw [hq]; rfl
  refine ⟨?_, ?_, ?_, ?_⟩ <;> simp [performFullTextSearch, he]

/-- **C5** witness: a whitespace-only query over two different concrete
stores. -/
theorem fullTextSearch_empty_query_witness :
    wsTrim (" \t " : String).data = [] ∧
    ((performFullTextSearch [c1Report] [c7TestResult]
        { query := " \t " } {}).results = [] ∧
      (performFullTextSearch [c1Report] [c7TestResult]
        { query := " \t " } {}).total = 0 ∧
      (performFullTextSearch [c1Report] [c7TestResult]
        { query := " \t " } {}).totalPages = 0 ∧
      performFullTextSearch [c1Report] [c7TestResult] { query := " \t " } {} =
        performFullTextSearch [] [] { query := " \t " } {}) :=
  ⟨by decide,
    fullTextSearch_empty_query [c1Report] [c7TestResult] [] []
      { query := " \t " } {} (by decide)⟩

/-- **C6**.  For a non-empty query (include flags at their defaults), the two
sub-searches run with limit capped to `ceil(limit/2)` (offset halved), the
returned `total` is the sum of the two sub-searches' pre-truncation match
counts over the whole store, the returned list is the re-sorted concatenation
of the two sub-result lists cut to `limit`, and at most `limit` results come
back. -/
theorem fullTextSearch_merge_structure (db : List Report)
    (trs : List TestResult) (f : SearchFilters) (o : SearchOptions)
    (hq : wsTrim f.query.data ≠ []) (hr : f.includeReports ≠ some false)
    (htr : f.includeTestResults ≠ some false) :
    (performFullTextSearch db trs f o).total =
      (db.filter (reportSearchWhere (splitWs (wsTrim f.query.data))
        f.blockchain f.status f.dateFrom f.dateTo)).length +
      ((joinTR trs db).filter (trSearchWhere (splitWs (wsTrim f.query.data))
        f.blockchain f.status f.dateFrom f.dateTo)).length ∧
    (performFullTextSearch db trs f o).results =
      (insSort (combinedLe (o.sortBy.getD "relevance") (o.sortOrder.getD "desc"))
        ((searchReports db (splitWs (wsTrim f.query.data)) f.blockchain
            f.status f.dateFrom f.dateTo ((o.limit.getD 50 + 1) / 2)
            (((o.page.getD 1 - 1) * o.limit.getD 50) / 2)).1 ++
          (searchTestResults trs db (splitWs (wsTrim f.query.data))
            f.blockchain f.status f.dateFrom f.dateTo
            ((o.limit.getD 50 + 1) / 2)
            (((o.page.getD 1 - 1) * o.limit.getD 50) / 2)).1)).take
        (o.limit.getD 50) ∧
    (performFullTextSearch db trs f o).results.length ≤ o.limit.getD 50 := by
  have he : (wsTrim f.query.data).isEmpty = false := by
    cases hcase : wsTrim f.query.data with
    | nil => exact absurd hcase hq
    | cons a t => rfl
  have hrT : f.includeReports.getD true = true := by
    cases hx : f.includeReports with
    | none => rfl
    | some b =>
      cases b with
      | false => exact absurd hx hr
      | true => rfl
  have htT : f.includeTestResults.getD true = true := by
    cases hx : f.includeTestResults with
    | none => rfl
    | some b =>
      cases b with
      | false => exact absurd hx htr
      | true => rfl
  refine ⟨?_, ?_, ?_⟩
  · simp [performFullTextSearch, searchReports, searchTestResults, he, hrT, htT]
  · simp [performFullTextSearch, he, hrT, htT]
  · simp only [performFullTextSearch, he, hrT, htT]
    simp only [Bool.false_eq_true, if_false, if_true]
    rw [List.length_take]
    exact Nat.min_le_left _ _

/-- **C6** witness: a one-word query over a concrete store with the default
options and include flags. -/
theorem fullTextSearch_merge_structure_witness :
    wsTrim ("ether" : String).data ≠ [] ∧
    ((performFullTextSearch [c1Report] [c2Pass] { query := "ether" } {}).total =
      ([c1Report].filter (reportSearchWhere (splitWs (wsTrim ("ether" : String).data))
        none none none none)).length +
      ((joinTR [c2Pass] [c1Report]).filter
        (trSearchWhere (splitWs (wsTrim ("ether" : String).data))
          none none none none)).length ∧
    (performFullTextSearch [c1Report] [c2Pass] { query := "ether" } {}).results =
      (insSort (combinedLe "relevance" "desc")
        ((searchReports [c1Report] (splitWs (wsTrim ("ether" : String).data))
            none none none none ((50 + 1) / 2) (((1 - 1) * 50) / 2)).1 ++
          (searchTestResults [c2Pass] [c1Report]
            (splitWs (wsTrim ("ether" : String).data)) none none none none
            ((50 + 1) / 2) (((1 - 1) * 50) / 2)).1)).take 50 ∧
    (performFullTextSearch [c1Report] [c2Pass]
        { query := "ether" } {}).results.length ≤ 50) :=
  ⟨by decide,
    fullTextSearch_merge_structure [c1Report] [c2Pass] { query := "ether" } {}
      (by decide) (by decide) (by decide)⟩

/-- **C10**.  Every result row `performAdvancedSearch` produces carries the
hard-coded `relevanceScore = 1`, whatever the filters, query text, and sort
order (even when the underlying query orders by a computed weighted score). -/
theorem advancedSearch_relevance_constant (db : List Report)
    (trs : List TestResult) (af : AdvancedFilters) :
    ∀ row ∈ (performAdvancedSearch db trs af).results,
      row.relevanceScore = 1 := by
  intro row hrow
  simp only [performAdvancedSearch, List.mem_map] at hrow
  obtain ⟨x, hx, rfl⟩ := hrow
  rfl

/-- **C10** witness: a concrete store yielding a result row (sorted by the
computed relevance score via the default `sortBy`), whose reported score is
still 1. -/
theorem advancedSearch_relevance_constant_witness :
    ({ type := "test_result", id := "t1", title := "test one"
       blockchain := "ethereum", status := "pass", timestamp := 10
       relevanceScore := 1 } : SearchResult) ∈
      (performAdvancedSearch [c2Report] [c2Pass]
        { query := some "test" }).results ∧
    ({ type := "test_result", id := "t1", title := "test one"
       blockchain := "ethereum", status := "pass", timestamp := 10
       relevanceScore := 1 } : SearchResult).relevanceScore = 1 :=
  ⟨by decide,
    advancedSearch_relevance_constant [c2Report] [c2Pass]
      { query := some "test" } _ (by decide)⟩

/-! ### Bounds on the rounded rates -/

theorem jsRound_nonneg (q : ℚ) (h : 0 ≤ q) : 0 ≤ jsRound q := by
  rw [jsRound_eq]
  exact Int.le_floor.mpr (by push_cast; linarith)

theorem jsRound_le_int (q : ℚ) (n : ℤ) (h : q ≤ n) : jsRound q ≤ n := by
  rw [jsRound_eq]
  have h2 : q + 1 / 2 ≤ (n : ℚ) + 1 / 2 := by linarith
  have h3 : ⌊(n : ℚ) + 1 / 2⌋ = n := by
    rw [add_comm, Int.floor_add_int]
    norm_num
  calc ⌊q + 1 / 2⌋ ≤ ⌊(n : ℚ) + 1 / 2⌋ := Int.floor_le_floor h2
    _ = n := h3

theorem rate_div100_bounds (x : ℚ) (h0 : 0 ≤ x) (h1 : x ≤ 10000) :
    0 ≤ (jsRound x : ℚ) / 100 ∧ (jsRound x : ℚ) / 100 ≤ 100 := by
  have ha : 0 ≤ jsRound x := jsRound_nonneg x h0
  have hb : jsRound x ≤ 10000 := jsRound_le_int x 10000 (by exact_mod_cast h1)
  constructor
  · exact div_nonneg (by exact_mod_cast ha) (by norm_num)
  · rw [div_le_iff₀ (by norm_num : (0 : ℚ) < 100)]
    have hc : (jsRound x : ℚ) ≤ 10000 := by exact_mod_cast hb
    linarith

theorem ratio_unit_bounds (p t : ℕ) (hpt : p ≤ t) (ht : 0 < t) :
    0 ≤ (p : ℚ) / (t : ℚ) ∧ (p : ℚ) / (t : ℚ) ≤ 1 := by
  have htQ : (0 : ℚ) < t := by exact_mod_cast ht
  refine ⟨div_nonneg (by positivity) htQ.le, ?_⟩
  exact (div_le_one htQ).mpr (by exact_mod_cast hpt)

/-- Bounds for the `round((p/t)*10000)/100` rate shape with its
zero-denominator guard. -/
theorem rateField_bounds (p t : ℕ) (hpt : p ≤ t) :
    0 ≤ (if 0 < t then
        (jsRound (((p : ℚ) / (t : ℚ)) * 10000) : ℚ) / 100 else 0) ∧
    (if 0 < t then
        (jsRound (((p : ℚ) / (t : ℚ)) * 10000) : ℚ) / 100 else 0) ≤ 100 := by
  by_cases ht : 0 < t
  · obtain ⟨h0, h1⟩ := ratio_unit_bounds p t hpt ht
    simp only [ht, if_true]
    exact rate_div100_bounds _ (by nlinarith) (by nlinarith)
  · simp [ht]

/-- Bounds for the dashboard's `round(((p/t)*100)*100)/100` shape. -/
theorem dashRate_bounds (p t : ℕ) (hpt : p ≤ t) :
    0 ≤ (jsRound ((if 0 < t then ((p : ℚ) / (t : ℚ)) * 100 else 0) * 100) : ℚ)
        / 100 ∧
    (jsRound ((if 0 < t then ((p : ℚ) / (t : ℚ)) * 100 else 0) * 100) : ℚ)
        / 100 ≤ 100 := by
  by_cases ht : 0 < t
  · obtain ⟨h0, h1⟩ := ratio_unit_bounds p t hpt ht
    simp only [ht, if_true]
    exact rate_div100_bounds _ (by nlinarith) (by nlinarith)
  · simp only [ht, if_false]
    exact rate_div100_bounds _ (by norm_num) (by norm_num)

/-- Bounds for the health metric's `round(raw*100)/100` shape where the raw
rate defaults to 100. -/
theorem healthRate_bounds (p t : ℕ) (hpt : p ≤ t) :
    0 ≤ (jsRound ((if 0 < t then ((p : ℚ) / (t : ℚ)) * 100 else 100) * 100) : ℚ)
        / 100 ∧
    (jsRound ((if 0 < t then ((p : ℚ) / (t : ℚ)) * 100 else 100) * 100) : ℚ)
        / 100 ≤ 100 := by
  by_cases ht : 0 < t
  · obtain ⟨h0, h1⟩ := ratio_unit_bounds p t hpt ht
    simp only [ht, if_true]
    exact rate_div100_bounds _ (by nlinarith) (by nlinarith)
  · simp only [ht, if_false]
    exact rate_div100_bounds _ (by norm_num) (by norm_num)

theorem jsRound_zero : jsRound 0 = 0 := by
  rw [jsRound_eq]
  norm_num

theorem trOptStatusIs_imp_isSome (o : Option TestResult) (s : String)
    (h : trOptStatusIs o s = true) : o.isSome = true := by
  cases o with
  | none => exact absurd h (by simp [trOptStatusIs])
  | some t => rfl

theorem countP_status_le_isSome (rows : List (Report × Option TestResult))
    (s : String) :
    rows.countP (fun x => trOptStatusIs x.2 s) ≤
      rows.countP (fun x => x.2.isSome) :=
  List.countP_mono_left fun _ _ h => trOptStatusIs_imp_isSome _ _ h

/-- Rate bounds and the zero-denominator value for one `getBlockchainStats`
row. -/
theorem blockchainStatsRow_rate_bounds (w : List Report)
    (trs : List TestResult) (b : String) :
    0 ≤ (blockchainStatsRow w trs b).successRate ∧
    (blockchainStatsRow w trs b).successRate ≤ 100 ∧
    ((blockchainStatsRow w trs b).totalTests = 0 →
      (blockchainStatsRow w trs b).successRate = 0) := by
  have hb := rateField_bounds
    ((blockchainGroupRows w trs b).countP (fun x => trOptStatusIs x.2 "pass"))
    ((blockchainGroupRows w trs b).countP (fun x => x.2.isSome))
    (countP_status_le_isSome _ "pass")
  refine ⟨hb.1, hb.2, ?_⟩
  intro h0
  simp only [blockchainStatsRow] at h0 ⊢
  simp [h0]

/-- Rate bounds and the zero-denominator value for one `getTimeSeriesData`
row. -/
theorem timeSeriesRow_rate_bounds (rows : List (Report × Option TestResult))
    (d : Int) :
    0 ≤ (timeSeriesRow rows d).successRate ∧
    (timeSeriesRow rows d).successRate ≤ 100 ∧
    ((timeSeriesRow rows d).totalTests = 0 →
      (timeSeriesRow rows d).successRate = 0) := by
  have hb := rateField_bounds
    ((rows.filter (fun x => dayBucket x.1.timestamp == d)).countP
      (fun x => trOptStatusIs x.2 "pass"))
    ((rows.filter (fun x => dayBucket x.1.timestamp == d)).countP
      (fun x => x.2.isSome))
    (countP_status_le_isSome _ "pass")
  refine ⟨hb.1, hb.2, ?_⟩
  intro h0
  simp only [timeSeriesRow] at h0 ⊢
  simp [h0]

/-- Rate bounds and the zero-denominator value for one
`getTestFailurePatterns` row. -/
theorem failurePatternRow_rate_bounds (pairs : List (TestResult × Report))
    (n : String) :
    0 ≤ (failurePatternRow pairs n).failureRate ∧
    (failurePatternRow pairs n).failureRate ≤ 100 ∧
    ((failurePatternRow pairs n).totalRuns = 0 →
      (failurePatternRow pairs n).failureRate = 0) := by
  have hb := rateField_bounds
    ((pairs.filter (fun x => x.1.testName == n)).countP
      (fun x => x.1.status == "fail"))
    (pairs.filter (fun x => x.1.testName == n)).length
    (List.countP_le_length _)
  refine ⟨hb.1, hb.2, ?_⟩
  intro h0
  simp only [failurePatternRow] at h0 ⊢
  simp [h0]

/-- Transport a property through `(l.map f).get`. -/
theorem get_of_map {α β : Type} (f : α → β) (P : β → Prop)
    (hf : ∀ a, P (f a)) (l : List α) (i : Nat)
    (h : i < (l.map f).length) : P ((l.map f).get ⟨i, h⟩) := by
  rw [List.get_eq_getElem, List.getElem_map]
  exact hf _

/-! ### Claims about the analytics queries -/

/-- **C3**.  Every `successRate`/`failureRate`/`recentSuccessRate` the
analytics functions return lies in [0, 100] (total functions over `ℚ`: always
defined, never NaN), and the zero-denominator cases are pinned: 0 for
`getDashboardSummary`, `getBlockchainStats`, `getTimeSeriesData` and
`getTestFailurePatterns`, 100 for `getSystemHealthMetrics`'
`recentSuccessRate`. -/
theorem analytics_rates_bounded (db : List Report) (trs : List TestResult)
    (now : Int) (tf : Timeframe) (stf : StatsTimeframe) (days limit : Nat)
    (bc : Option String) :
    (0 ≤ (getDashboardSummary db trs now tf).successRate ∧
      (getDashboardSummary db trs now tf).successRate ≤ 100 ∧
      ((getDashboardSummary db trs now tf).totalTests = 0 →
        (getDashboardSummary db trs now tf).successRate = 0)) ∧
    (∀ i (h : i < (getBlockchainStats db trs now stf).length),
      0 ≤ ((getBlockchainStats db trs now stf).get ⟨i, h⟩).successRate ∧
      ((getBlockchainStats db trs now stf).get ⟨i, h⟩).successRate ≤ 100 ∧
      (((getBlockchainStats db trs now stf).get ⟨i, h⟩).totalTests = 0 →
        ((getBlockchainStats db trs now stf).get ⟨i, h⟩).successRate = 0)) ∧
    (∀ i (h : i < (getTimeSeriesData db trs now days bc).length),
      0 ≤ ((getTimeSeriesData db trs now days bc).get ⟨i, h⟩).successRate ∧
      ((getTimeSeriesData db trs now days bc).get ⟨i, h⟩).successRate ≤ 100 ∧
      (((getTimeSeriesData db trs now days bc).get ⟨i, h⟩).totalTests = 0 →
        ((getTimeSeriesData db trs now days bc).get ⟨i, h⟩).successRate = 0)) ∧
    (∀ i (h : i < (getTestFailurePatterns db trs now limit days).length),
      0 ≤ ((getTestFailurePatterns db trs now limit days).get
        ⟨i, h⟩).failureRate ∧
      ((getTestFailurePatterns db trs now limit days).get
        ⟨i, h⟩).failureRate ≤ 100 ∧
      (((getTestFailurePatterns db trs now limit days).get
          ⟨i, h⟩).totalRuns = 0 →
        ((getTestFailurePatterns db trs now limit days).get
          ⟨i, h⟩).failureRate = 0)) ∧
    (0 ≤ (getSystemHealthMetrics db trs now).metrics.recentSuccessRate ∧
      (getSystemHealthMetrics db trs now).metrics.recentSuccessRate ≤ 100 ∧
      (shTotalTests db trs now = 0 →
        (getSystemHealthMetrics db trs now).metrics.recentSuccessRate =
          100)) := by
  refine ⟨⟨?_, ?_, ?_⟩, ?_, ?_, ?_, ⟨?_, ?_, ?_⟩⟩
  · exact (dashRate_bounds
      ((windowJoin trs db (now - timeframeMillis tf)).countP
        (fun x => x.1.status == "pass"))
      (windowJoin trs db (now - timeframeMillis tf)).length
      (List.countP_le_length _)).1
  · exact (dashRate_bounds
      ((windowJoin trs db (now - timeframeMillis tf)).countP
        (fun x => x.1.status == "pass"))
      (windowJoin trs db (now - timeframeMillis tf)).length
      (List.countP_le_length _)).2
  · intro h0
    simp only [getDashboardSummary] at h0 ⊢
    simp [h0, jsRound_zero]
  · intro i h
    exact get_of_map _ (fun row =>
        0 ≤ row.successRate ∧ row.successRate ≤ 100 ∧
          (row.totalTests = 0 → row.successRate = 0))
      (fun b => blockchainStatsRow_rate_bounds _ trs b) _ i h
  · intro i h
    exact get_of_map _ (fun row =>
        0 ≤ row.successRate ∧ row.successRate ≤ 100 ∧
          (row.totalTests = 0 → row.successRate = 0))
      (fun d => timeSeriesRow_rate_bounds _ d) _ i h
  · intro i h
    exact get_of_map _ (fun row =>
        0 ≤ row.failureRate ∧ row.failureRate ≤ 100 ∧
          (row.totalRuns = 0 → row.failureRate = 0))
      (fun n => failurePatternRow_rate_bounds _ n) _ i h
  · exact (healthRate_bounds (shPassedTests db trs now)
      (shTotalTests db trs now) (countP_status_le_isSome _ "pass")).1
  · exact (healthRate_bounds (shPassedTests db trs now)
      (shTotalTests db trs now) (countP_status_le_isSome _ "pass")).2
  · intro h0
    have hr : recentSuccessRateRaw db trs now = 100 := by
      simp [recentSuccessRateRaw, h0]
    show (jsRound (recentSuccessRateRaw db trs now * 100) : ℚ) / 100 = 100
    rw [hr, jsRound_eq]
    norm_num

/-- **C3** witness: the bounds at a concrete store with one report and one
failing test result (all five functions produce a row). -/
theorem analytics_rates_bounded_witness :
    (0 ≤ (getDashboardSummary [c2Report] [c2Fail] 20 Timeframe.day).successRate ∧
      (getDashboardSummary [c2Report] [c2Fail] 20 Timeframe.day).successRate ≤
        100) ∧
    0 < (getBlockchainStats [c2Report] [c2Fail] 20 StatsTimeframe.week).length ∧
    0 ≤ ((getBlockchainStats [c2Report] [c2Fail] 20 StatsTimeframe.week).get
      ⟨0, by decide⟩).successRate ∧
    ((getTimeSeriesData [c2Report] [c2Fail] 20 7 none).get
      ⟨0, by decide⟩).successRate ≤ 100 ∧
    ((getTestFailurePatterns [c2Report] [c2Fail] 20 5 7).get
      ⟨0, by decide⟩).failureRate ≤ 100 ∧
    0 ≤ (getSystemHealthMetrics [c2Report] [c2Fail] 20).metrics.recentSuccessRate :=
  ⟨⟨(analytics_rates_bounded [c2Report] [c2Fail] 20 Timeframe.day
      StatsTimeframe.week 7 5 none).1.1,
    (analytics_rates_bounded [c2Report] [c2Fail] 20 Timeframe.day
      StatsTimeframe.week 7 5 none).1.2.1⟩,
   by decide,
   ((analytics_rates_bounded [c2Report] [c2Fail] 20 Timeframe.day
      StatsTimeframe.week 7 5 none).2.1 0 (by decide)).1,
   ((analytics_rates_bounded [c2Report] [c2Fail] 20 Timeframe.day
      StatsTimeframe.week 7 5 none).2.2.1 0 (by decide)).2.1,
   ((analytics_rates_bounded [c2Report] [c2Fail] 20 Timeframe.day
      StatsTimeframe.week 7 5 none).2.2.2.1 0 (by decide)).2.1,
   (analytics_rates_bounded [c2Report] [c2Fail] 20 Timeframe.day
      StatsTimeframe.week 7 5 none).2.2.2.2.1⟩

/-- **C4**.  `getSystemHealthMetrics` computes its raw `recentSuccessRate` as
100 when no tests ran in 24 hours; the critical alert exists exactly when that
rate is below 50, the success-rate warning exactly when it is in [50, 80), the
independent no-recent-reports warning exactly when zero reports arrived in the
last hour; and `overallHealth` is `critical` iff a critical alert exists, else
`warning` iff any alert exists, else `healthy`. -/
theorem systemHealth_alerts_spec (db : List Report) (trs : List TestResult)
    (now : Int) :
    (shTotalTests db trs now = 0 → recentSuccessRateRaw db trs now = 100) ∧
    ((∃ a ∈ (getSystemHealthMetrics db trs now).alerts, a.type = "critical") ↔
      recentSuccessRateRaw db trs now < 50) ∧
    ((∃ a ∈ (getSystemHealthMetrics db trs now).alerts,
        a.type = "warning" ∧ a.tag = "successRate") ↔
      (50 ≤ recentSuccessRateRaw db trs now ∧
        recentSuccessRateRaw db trs now < 80)) ∧
    ((∃ a ∈ (getSystemHealthMetrics db trs now).alerts,
        a.tag = "noRecentReports") ↔ lastHourReportCount db now = 0) ∧
    ((getSystemHealthMetrics db trs now).overallHealth = "critical" ↔
      (∃ a ∈ (getSystemHealthMetrics db trs now).alerts,
        a.type = "critical")) ∧
    ((getSystemHealthMetrics db trs now).overallHealth = "warning" ↔
      (¬ (∃ a ∈ (getSystemHealthMetrics db trs now).alerts,
          a.type = "critical") ∧
        (getSystemHealthMetrics db trs now).alerts ≠ [])) ∧
    ((getSystemHealthMetrics db trs now).overallHealth = "healthy" ↔
      (getSystemHealthMetrics db trs now).alerts = []) := by
  refine ⟨?_, ?_⟩
  · intro h0
    simp [recentSuccessRateRaw, h0]
  by_cases h1 : recentSuccessRateRaw db trs now < 50 <;>
    by_cases h2 : recentSuccessRateRaw db trs now < 80 <;>
    by_cases h3 : lastHourReportCount db now = 0 <;>
    simp +decide [getSystemHealthMetrics, shAlerts, h1, h2, h3, not_lt] <;>
    first
      | rfl
      | (exact le_of_not_lt h1)

/-- **C4** witness: an empty store — no tests in 24 hours gives the raw rate
100, and no reports in the last hour raises the independent warning. -/
theorem systemHealth_alerts_spec_witness :
    shTotalTests [] [] 0 = 0 ∧
    recentSuccessRateRaw [] [] 0 = 100 ∧
    (∃ a ∈ (getSystemHealthMetrics [] [] 0).alerts,
      a.tag = "noRecentReports") ∧
    lastHourReportCount [] 0 = 0 :=
  ⟨by decide,
    (systemHealth_alerts_spec [] [] 0).1 (by decide),
    ((systemHealth_alerts_spec [] [] 0).2.2.2.1).mpr (by decide),
    by decide⟩
